import Mathlib

/-!
# Shallow embedding of sa-token-go

This file embeds the parts of the `sa-token-go` repository that the
verified claims are about:

* Go strings are modelled as `List Char` (`GoStr`), with the `strings`
  package helpers (`HasPrefix`, `HasSuffix`, `TrimPrefix`, `TrimSuffix`,
  `Contains`, `Split`) re-implemented over lists.
* The in-memory storage backend (`storage/memory/memory.go`) is modelled
  as an association list from keys to items carrying an absolute
  expiration timestamp (`0` = never expires); every operation takes the
  current unix time `now : Int` explicitly.
* The session/token manager (`core/manager/manager.go`), the nonce
  manager (`core/security`, package `security`), and the OAuth2 server
  (`core/oauth2`) become pure state transformers over that storage.
* Randomness is external: operations that read `crypto/rand` take the
  produced random string as an explicit parameter; the token generator
  (`core/token/token.go`) additionally models a failing random source.
-/

namespace SaTokenGo

/-- Go strings, modelled as lists of characters. -/
abbrev GoStr := List Char

/-- Coerce a Lean string literal to the `GoStr` model. -/
def s2l (s : String) : GoStr := s.data

/-- Embedding of `strings.HasPrefix(s, pre)`. -/
def goStartsWith (s pre : GoStr) : Bool := pre.isPrefixOf s

/-- Embedding of `strings.HasSuffix(s, suf)`. -/
def goEndsWith (s suf : GoStr) : Bool := suf.isSuffixOf s

/-- Embedding of `strings.TrimSuffix(s, suf)`: drop `suf` from the end when present. -/
def goTrimSuffix (s suf : GoStr) : GoStr :=
  if goEndsWith s suf then s.take (s.length - suf.length) else s

/-- Embedding of `strings.TrimPrefix(s, pre)`: drop `pre` from the front when present. -/
def goTrimPre (s pre : GoStr) : GoStr :=
  if goStartsWith s pre then s.drop pre.length else s

/-- Embedding of `strings.Contains(s, sub)`: substring test. -/
def goContainsSub : GoStr → GoStr → Bool
  | [], sub => sub.isEmpty
  | c :: t, sub => sub.isPrefixOf (c :: t) || goContainsSub t sub

/-- Embedding of `strings.Split(s, sep)` for a one-character separator: Go's split
never returns an empty list (splitting the empty string yields `[""]`). -/
def goSplitOn (sep : Char) : GoStr → List GoStr
  | [] => [[]]
  | c :: rest =>
    match goSplitOn sep rest with
    | [] => [[]]
    | h :: t => if c = sep then [] :: h :: t else (c :: h) :: t

/-! ## Permission matcher (`Manager.matchPermission`, core/manager/manager.go) -/

/-- Embedding of `Manager.matchPermission(pattern, permission)` translated from
`core/manager/manager.go`:
1. `pattern == "*" || pattern == permission` matches;
2. `strings.HasSuffix(pattern, ":*")`: match iff `permission` starts with
   `strings.TrimSuffix(pattern, "*")`;
3. otherwise, if `pattern` contains `*`: split both on `:`, require equal
   segment counts and every non-`*` pattern segment equal to the
   corresponding permission segment;
4. otherwise no match. -/
def matchPermission (pattern permission : GoStr) : Bool :=
  if pattern = s2l "*" ∨ pattern = permission then true
  else if goEndsWith pattern (s2l ":*") then
    goStartsWith permission (goTrimSuffix pattern (s2l "*"))
  else if goContainsSub pattern (s2l "*") then
    let parts := goSplitOn ':' pattern
    let permParts := goSplitOn ':' permission
    if parts.length ≠ permParts.length then false
    else (parts.zip permParts).all fun pq => pq.1 = s2l "*" ∨ pq.1 = pq.2
  else false

/-- The matcher as worded by the specification (§4.4), for comparison with
`matchPermission`: rule 1 `P = "*"` or `P = Q`; rule 2 `P` ends in `:*` ⇒
match iff `Q` starts with the prefix before the trailing `*`; rule 3 `P`
contains `*` elsewhere ⇒ split both on `:`, equal segment counts, every
non-`*` segment of `P` equals `Q`'s corresponding segment; rule 4
otherwise exact match only. -/
def specMatchPermission (P Q : GoStr) : Bool :=
  if P = s2l "*" ∨ P = Q then true
  else if goEndsWith P (s2l ":*") then
    goStartsWith Q P.dropLast
  else if goContainsSub P (s2l "*") then
    let ps := goSplitOn ':' P
    let qs := goSplitOn ':' Q
    if ps.length ≠ qs.length then false
    else (ps.zip qs).all fun pq => pq.1 = s2l "*" ∨ pq.1 = pq.2
  else P = Q

theorem goEndsWith_star_of_colonStar {P : GoStr} (h : goEndsWith P (s2l ":*") = true) :
    goEndsWith P (s2l "*") = true := by
  simp only [goEndsWith, List.isSuffixOf_iff_suffix] at h ⊢
  exact List.IsSuffix.trans (by decide) h

theorem goTrimSuffix_star_eq_dropLast {P : GoStr} (h : goEndsWith P (s2l ":*") = true) :
    goTrimSuffix P (s2l "*") = P.dropLast := by
  rw [goTrimSuffix, if_pos (goEndsWith_star_of_colonStar h)]
  have : (s2l "*").length = 1 := by decide
  rw [this, List.dropLast_eq_take]

theorem matchPermission_eq_spec (P Q : GoStr) :
    matchPermission P Q = specMatchPermission P Q := by
  unfold matchPermission specMatchPermission
  by_cases h1 : P = s2l "*" ∨ P = Q
  · simp [h1]
  · rw [if_neg h1, if_neg h1]
    by_cases h2 : goEndsWith P (s2l ":*") = true
    · rw [if_pos h2, if_pos h2, goTrimSuffix_star_eq_dropLast h2]
    · rw [if_neg h2, if_neg h2]
      by_cases h3 : goContainsSub P (s2l "*") = true
      · rw [if_pos h3, if_pos h3]
      · rw [if_neg h3, if_neg h3]
        push_neg at h1
        simp [h1.2]

/-- C3: the permission matcher follows the spec's four-rule algorithm
(`*`/exact, trailing `:*` prefix rule, segment-wise wildcard rule with
equal segment counts, otherwise exact only); in particular `user:*`
matches `user:write` but not `order:write`, and `user:*:view` matches
`user:profile:view` but not `user:view`. -/
theorem matchPermission_follows_spec :
    (∀ P Q : GoStr, matchPermission P Q = specMatchPermission P Q)
    ∧ matchPermission (s2l "user:*") (s2l "user:write") = true
    ∧ matchPermission (s2l "user:*") (s2l "order:write") = false
    ∧ matchPermission (s2l "user:*:view") (s2l "user:profile:view") = true
    ∧ matchPermission (s2l "user:*:view") (s2l "user:view") = false :=
  ⟨matchPermission_eq_spec, by decide, by decide, by decide, by decide⟩

/-! ## Storage values

The in-memory backend stores `interface{}` values.  The values the
embedded components actually store are: plain strings (account→token
mapping, the `"1"` disable marker, JSON-marshalled `TokenInfo` /
`Session` strings), unix timestamps (nonce records), and the OAuth2
record pointers.  JSON marshalling of a record followed by unmarshalling
is modelled as storing the record itself. -/

/-- Embedding of `TokenInfo` (core/manager/manager.go). -/
structure TokenInfo where
  loginID : GoStr
  device : GoStr
  createTime : Int
  activeTime : Int
  tag : GoStr := []
deriving DecidableEq

/-- Embedding of `oauth2.AuthorizationCode` (core/oauth2). -/
structure AuthorizationCode where
  code : GoStr
  clientID : GoStr
  redirectURI : GoStr
  userID : GoStr
  scopes : List GoStr
  createTime : Int
  expiresIn : Int
  used : Bool
deriving DecidableEq

/-- Embedding of `oauth2.AccessToken` (core/oauth2). -/
structure AccessToken where
  token : GoStr
  tokenType : GoStr
  expiresIn : Int
  refreshToken : GoStr
  scopes : List GoStr
  userID : GoStr
  clientID : GoStr
deriving DecidableEq

/-- Session attribute values (`map[string]interface{}` entries). -/
inductive SVal where
  | vstr (s : GoStr)
  | vint (n : Int)
  | vstrList (l : List GoStr)
deriving DecidableEq

/-- Values held by the storage backend. -/
inductive Val where
  | vstr (s : GoStr)
  | vint (n : Int)
  | vtokenInfo (t : TokenInfo)
  | vsession (id : GoStr) (createTime : Int) (data : List (GoStr × SVal))
  | vauthCode (c : AuthorizationCode)
  | vaccessToken (t : AccessToken)
deriving DecidableEq

/-! ## In-memory storage backend (`storage/memory/memory.go`)

Each stored `item` carries the value and an absolute expiration unix
time, `0` meaning never expires.  All operations take the current time
`now` explicitly (the Go code calls `time.Now()`). -/

/-- Embedding of `item` (storage/memory/memory.go). -/
structure Item where
  value : Val
  expiration : Int
deriving DecidableEq

/-- Embedding of `item.isExpired()`: expired iff an expiration is set and `now` is
strictly past it. -/
def Item.isExpired (i : Item) (now : Int) : Bool :=
  if i.expiration = 0 then false else decide (now > i.expiration)

/-- The in-memory store: an association list from keys to items with at
most one binding per key (`Set` replaces the existing binding). -/
abbrev Store := List (GoStr × Item)

namespace Store

/-- Raw map lookup (`s.data[key]`). -/
def find : Store → GoStr → Option Item
  | [], _ => none
  | (k', it) :: t, k => if k' = k then some it else find t k

/-- Remove every binding of `key` (helper realising Go map assignment). -/
def erase (s : Store) (k : GoStr) : Store :=
  s.filter fun p => decide (p.1 ≠ k)

/-- Embedding of `Storage.Set(key, value, expiration)`: a positive ttl sets the
absolute expiration to `now + ttl`, otherwise the item never expires. -/
def set (s : Store) (k : GoStr) (v : Val) (ttl : Int) (now : Int) : Store :=
  (k, ⟨v, if ttl > 0 then now + ttl else 0⟩) :: erase s k

/-- Embedding of `Storage.Get(key)`: `none` models the `key not found` / `key expired`
errors. -/
def get (s : Store) (k : GoStr) (now : Int) : Option Val :=
  match find s k with
  | none => none
  | some it => if it.isExpired now then none else some it.value

/-- Embedding of `Storage.Delete(key)`. -/
def delete (s : Store) (k : GoStr) : Store := erase s k

/-- Embedding of `Storage.Exists(key)`. -/
def existsKey (s : Store) (k : GoStr) (now : Int) : Bool :=
  match find s k with
  | none => false
  | some it => !(it.isExpired now)

/-- Embedding of `Storage.Expire(key, expiration)`: errors (`false`) when the key is
absent; a non-positive ttl clears the expiration. -/
def expire (s : Store) (k : GoStr) (ttl : Int) (now : Int) : Store × Bool :=
  match find s k with
  | none => (s, false)
  | some it =>
    ((s.map fun p => if p.1 = k
        then (p.1, { it with expiration := if ttl > 0 then now + ttl else 0 })
        else p), true)

/-- Embedding of `Storage.TTL(key)`: the reported duration in seconds together with
the error flag.  Absent key: `(-2, error)`; no expiration: `(-1, ok)`;
already past expiration: `(-2, ok)`; otherwise the remaining seconds. -/
def ttl (s : Store) (k : GoStr) (now : Int) : Int × Bool :=
  match find s k with
  | none => (-2, true)
  | some it =>
    if it.expiration = 0 then (-1, false)
    else if it.expiration - now < 0 then (-2, false)
    else (it.expiration - now, false)

/-- Embedding of `matchPattern(key, pattern)` (storage/memory/memory.go). -/
def matchPattern (key pattern : GoStr) : Bool :=
  if pattern = [] ∨ pattern = s2l "*" then true
  else
    let pattern := goTrimPre pattern (s2l "**/")
    if goEndsWith pattern (s2l "*") then
      goStartsWith key (goTrimSuffix pattern (s2l "*"))
    else if goStartsWith pattern (s2l "*") then
      goEndsWith key (goTrimPre pattern (s2l "*"))
    else if goContainsSub pattern (s2l "*") then
      match goSplitOn '*' pattern with
      | [p0, p1] => goStartsWith key p0 && goEndsWith key p1
      | _ => key = pattern
    else key = pattern

/-- Embedding of `Storage.Keys(pattern)`: all unexpired keys matching the pattern. -/
def keysOf (s : Store) (pattern : GoStr) (now : Int) : List GoStr :=
  (s.filter fun p => !(p.2.isExpired now) && matchPattern p.1 pattern).map Prod.fst

@[simp] theorem find_nil (k : GoStr) : find [] k = none := rfl

@[simp] theorem find_erase_self (s : Store) (k : GoStr) : find (erase s k) k = none := by
  induction s with
  | nil => rfl
  | cons p t ih =>
    rw [erase, List.filter_cons]
    by_cases h : p.1 = k
    · simpa [h, erase] using ih
    · simpa [h, find, erase] using ih

@[simp] theorem find_erase_ne (s : Store) {k k' : GoStr} (h : k' ≠ k) :
    find (erase s k) k' = find s k' := by
  induction s with
  | nil => rfl
  | cons p t ih =>
    rw [erase, List.filter_cons]
    by_cases hp : p.1 = k
    · have hpk' : ¬ p.1 = k' := fun he => h (he.symm.trans hp)
      simpa [hp, find, hpk', erase, Ne.symm h] using ih
    · by_cases hk' : p.1 = k'
      · simp [hp, find, hk', erase, h]
      · simpa [hp, find, hk', erase] using ih

@[simp] theorem find_set_self (s : Store) (k : GoStr) (v : Val) (ttl now : Int) :
    find (set s k v ttl now) k = some ⟨v, if ttl > 0 then now + ttl else 0⟩ := by
  simp [set, find]

@[simp] theorem find_set_ne (s : Store) {k k' : GoStr} (v : Val) (ttl now : Int)
    (h : k' ≠ k) : find (set s k v ttl now) k' = find s k' := by
  simp [set, find, Ne.symm h, find_erase_ne s h]

@[simp] theorem find_delete_self (s : Store) (k : GoStr) : find (delete s k) k = none :=
  find_erase_self s k

@[simp] theorem find_delete_ne (s : Store) {k k' : GoStr} (h : k' ≠ k) :
    find (delete s k) k' = find s k' := find_erase_ne s h

end Store

/-! ## Storage keys

The manager is created with `prefix = "satoken:"`; the nonce manager and
the OAuth2 server hard-code the same `"satoken:"` prefix in their
`fmt.Sprintf` key formats. -/

/-- Embedding of `Manager.getTokenKey`: `prefix + "token:" + tokenValue`. -/
def getTokenKey (tv : GoStr) : GoStr := s2l "satoken:" ++ s2l "token:" ++ tv

/-- Embedding of `Manager.getAccountKey`: `prefix + "account:" + loginID + ":" + device`. -/
def getAccountKey (l d : GoStr) : GoStr :=
  s2l "satoken:" ++ s2l "account:" ++ l ++ s2l ":" ++ d

/-- Embedding of `Session.save` key: `prefix + "session:" + id`. -/
def getSessionKey (l : GoStr) : GoStr := s2l "satoken:" ++ s2l "session:" ++ l

/-- Disable key: `prefix + "disable:" + loginID`. -/
def getDisableKey (l : GoStr) : GoStr := s2l "satoken:" ++ s2l "disable:" ++ l

/-- Nonce key: `fmt.Sprintf("satoken:nonce:%s", nonce)`. -/
def nonceKey (n : GoStr) : GoStr := s2l "satoken:" ++ s2l "nonce:" ++ n

/-- Embedding of `fmt.Sprintf("satoken:oauth2:code:%s", code)`. -/
def oauth2CodeKey (c : GoStr) : GoStr := s2l "satoken:oauth2:" ++ s2l "code:" ++ c

/-- Embedding of `fmt.Sprintf("satoken:oauth2:token:%s", token)`. -/
def oauth2TokenKey (t : GoStr) : GoStr := s2l "satoken:oauth2:" ++ s2l "token:" ++ t

/-- Embedding of `fmt.Sprintf("satoken:oauth2:refresh:%s", refreshToken)`. -/
def oauth2RefreshKey (r : GoStr) : GoStr :=
  s2l "satoken:oauth2:" ++ s2l "refresh:" ++ r

/-! Key-disjointness: keys of different families differ at a fixed
character position, and each key builder is injective. -/

theorem ne_of_getElem? {l₁ l₂ : GoStr} {i : Nat} {a b : Char}
    (h₁ : l₁.get? i = some a) (h₂ : l₂.get? i = some b) (h : a ≠ b) :
    l₁ ≠ l₂ := by
  intro he; rw [he, h₂] at h₁; exact h (Option.some.inj h₁).symm

theorem tokenKey_ne_accountKey (tv l d : GoStr) :
    getTokenKey tv ≠ getAccountKey l d :=
  ne_of_getElem? (i := 8) (a := 't') (b := 'a') rfl rfl (by decide)

theorem tokenKey_ne_sessionKey (tv l : GoStr) :
    getTokenKey tv ≠ getSessionKey l :=
  ne_of_getElem? (i := 8) (a := 't') (b := 's') rfl rfl (by decide)

theorem tokenKey_ne_disableKey (tv l : GoStr) :
    getTokenKey tv ≠ getDisableKey l :=
  ne_of_getElem? (i := 8) (a := 't') (b := 'd') rfl rfl (by decide)

theorem accountKey_ne_sessionKey (l d l' : GoStr) :
    getAccountKey l d ≠ getSessionKey l' :=
  ne_of_getElem? (i := 8) (a := 'a') (b := 's') rfl rfl (by decide)

theorem accountKey_ne_disableKey (l d l' : GoStr) :
    getAccountKey l d ≠ getDisableKey l' :=
  ne_of_getElem? (i := 8) (a := 'a') (b := 'd') rfl rfl (by decide)

theorem sessionKey_ne_disableKey (l l' : GoStr) :
    getSessionKey l ≠ getDisableKey l' :=
  ne_of_getElem? (i := 8) (a := 's') (b := 'd') rfl rfl (by decide)

theorem oauth2CodeKey_ne_tokenKey (c t : GoStr) :
    oauth2CodeKey c ≠ oauth2TokenKey t :=
  ne_of_getElem? (i := 15) (a := 'c') (b := 't') rfl rfl (by decide)

theorem oauth2CodeKey_ne_refreshKey (c r : GoStr) :
    oauth2CodeKey c ≠ oauth2RefreshKey r :=
  ne_of_getElem? (i := 15) (a := 'c') (b := 'r') rfl rfl (by decide)

theorem oauth2TokenKey_ne_refreshKey (t r : GoStr) :
    oauth2TokenKey t ≠ oauth2RefreshKey r :=
  ne_of_getElem? (i := 15) (a := 't') (b := 'r') rfl rfl (by decide)

theorem getTokenKey_inj {tv tv' : GoStr} (h : getTokenKey tv = getTokenKey tv') :
    tv = tv' := by
  unfold getTokenKey at h
  exact List.append_cancel_left h

theorem oauth2TokenKey_inj {t t' : GoStr} (h : oauth2TokenKey t = oauth2TokenKey t') :
    t = t' := by
  unfold oauth2TokenKey at h
  exact List.append_cancel_left h

theorem oauth2RefreshKey_inj {r r' : GoStr}
    (h : oauth2RefreshKey r = oauth2RefreshKey r') : r = r' := by
  unfold oauth2RefreshKey at h
  exact List.append_cancel_left h

/-! ## Session/Token manager (`core/manager/manager.go`)

The manager is stateless apart from its storage reference, so every
operation is a function of the store (plus the configuration and the
current time).  Token generation reads `crypto/rand`, so `login` takes
the generated token value as an explicit parameter.  The detached
auto-renewal goroutine spawned by `IsLogin` is fire-and-forget and never
awaited; this sequential model covers the foreground effects (the claims
C4–C6 and C10 do not involve the background task). -/

/-- The configuration fields the embedded operations read
(`core/config`). -/
structure Config where
  timeout : Int
  activeTimeout : Int
  isConcurrent : Bool
  autoRenew : Bool
deriving DecidableEq

/-- Embedding of `Manager.IsDisable`. -/
def isDisable (s : Store) (l : GoStr) (now : Int) : Bool :=
  s.existsKey (getDisableKey l) now

/-- Embedding of `Manager.saveTokenInfo`: marshal and store under the token key. -/
def saveTokenInfo (s : Store) (tv : GoStr) (info : TokenInfo)
    (expiration now : Int) : Store :=
  s.set (getTokenKey tv) (Val.vtokenInfo info) expiration now

/-- Embedding of `Manager.getTokenInfo`: read and unmarshal; `none` models every
error path (missing key, expired key, non-string or invalid JSON). -/
def getTokenInfo (s : Store) (tv : GoStr) (now : Int) : Option TokenInfo :=
  match s.get (getTokenKey tv) now with
  | some (Val.vtokenInfo i) => some i
  | _ => none

/-- Embedding of `Manager.kickout`: look up the account→token mapping and delete only
the token record; the mapping row itself is left in place. -/
def kickout (s : Store) (l d : GoStr) (now : Int) : Store :=
  match s.get (getAccountKey l d) now with
  | some (Val.vstr tv) => s.delete (getTokenKey tv)
  | _ => s

/-- Embedding of `Manager.Login` with the device argument resolved and the generated
token value passed in (`crypto/rand` is external).  Returns the error
message or the token and the new store.  The three `Session.Set` calls
on the freshly created session each persist the whole session object
under the session key with ttl `0`; the final persisted object holds the
`loginId`, `device` and `loginTime` entries. -/
def login (cfg : Config) (s : Store) (l d tv : GoStr) (now : Int) :
    Except GoStr (GoStr × Store) :=
  if isDisable s l now then .error (s2l "account is disabled")
  else
    let s := if !cfg.isConcurrent then kickout s l d now else s
    let expiration := if cfg.timeout > 0 then cfg.timeout else 0
    let info : TokenInfo := ⟨l, d, now, now, []⟩
    let s := saveTokenInfo s tv info expiration now
    let s := s.set (getAccountKey l d) (Val.vstr tv) expiration now
    let sessData : List (GoStr × SVal) :=
      [(s2l "loginId", SVal.vstr l), (s2l "device", SVal.vstr d),
       (s2l "loginTime", SVal.vint now)]
    let s := s.set (getSessionKey l) (Val.vsession l now sessData) 0 now
    .ok (tv, s)

/-- Embedding of `Manager.Logout`: read the mapping; when absent the call is a no-op
returning `nil`; otherwise delete the token record and the mapping.  The
Go function returns `nil` on every path, which the model records as the
always-`none` error component. -/
def logout (s : Store) (l d : GoStr) (now : Int) : Option GoStr × Store :=
  match s.get (getAccountKey l d) now with
  | some (Val.vstr tv) =>
    (none, (s.delete (getTokenKey tv)).delete (getAccountKey l d))
  | _ => (none, s)

/-- Embedding of `Manager.LogoutByToken`: delete the token record directly. -/
def logoutByToken (s : Store) (tv : GoStr) : Store :=
  s.delete (getTokenKey tv)

/-- Embedding of `Manager.IsLogin` foreground behaviour: `false` for the empty token
or a missing/expired token record; with an inactivity timeout
configured, a token whose `ActiveTime` lies further than
`ActiveTimeout` in the past is force-logged-out (`LogoutByToken`) and
reported `false`.  The detached auto-renew task is not part of the
sequential state transition. -/
def isLogin (cfg : Config) (s : Store) (tv : GoStr) (now : Int) : Bool × Store :=
  if tv = [] then (false, s)
  else if !(s.existsKey (getTokenKey tv) now) then (false, s)
  else if cfg.activeTimeout > 0 then
    match getTokenInfo s tv now with
    | some info =>
      if now - info.activeTime > cfg.activeTimeout
      then (false, logoutByToken s tv)
      else (true, s)
    | none => (true, s)
  else (true, s)

/-- Embedding of `Manager.GetTokenValueListByLoginID`: enumerate the account keys of
the login id via the `prefix + "account:" + loginID + ":*"` pattern and
collect the mapped token strings.  (In the states the manager builds,
every matched key holds a string value; the Go type assertion is
modelled by keeping only string values.) -/
def getTokenValueListByLoginID (s : Store) (l : GoStr) (now : Int) : List GoStr :=
  let pattern := s2l "satoken:" ++ s2l "account:" ++ l ++ s2l ":*"
  (s.keysOf pattern now).filterMap fun k =>
    match s.get k now with
    | some (Val.vstr t) => some t
    | _ => none

/-! ## Nonce manager (`core/security`, NonceManager)

The manager is constructed with `ttl = 5 * time.Minute`. -/

/-- The nonce ttl used by `NewManager` (5 minutes, in seconds). -/
def nonceTTL : Int := 300

/-- Embedding of `NonceManager.Generate` with the 64-char random hex value passed in:
store the creation time under the nonce key with the configured ttl. -/
def nonceGenerate (s : Store) (n : GoStr) (now : Int) : GoStr × Store :=
  (n, s.set (nonceKey n) (Val.vint now) nonceTTL now)

/-- Embedding of `NonceManager.Verify`: `false` for the empty string or an
absent/expired nonce; otherwise delete the nonce and return `true`. -/
def nonceVerify (s : Store) (n : GoStr) (now : Int) : Bool × Store :=
  if n = [] then (false, s)
  else if !(s.existsKey (nonceKey n) now) then (false, s)
  else (true, s.delete (nonceKey n))

/-! ## OAuth2 authorization server (`core/oauth2`)

`NewOAuth2Server` fixes `codeExpiration = 10min` and
`tokenExpiration = 2h`; no other code writes those fields, so they are
constants here.  The client registry is in-process memory, separate from
the storage.  Random code/token generation is external and passed in. -/

/-- Embedding of `oauth2.Client`. -/
structure OAuth2Client where
  clientID : GoStr
  clientSecret : GoStr
  redirectURIs : List GoStr
  grantTypes : List GoStr
  scopes : List GoStr
deriving DecidableEq

/-- Authorization-code lifetime set by `NewOAuth2Server` (10 minutes). -/
def codeExpirationSecs : Int := 600

/-- Access-token lifetime set by `NewOAuth2Server` (2 hours). -/
def tokenExpirationSecs : Int := 7200

/-- Refresh-token storage ttl in `generateAccessToken` (30 days). -/
def refreshTTLSecs : Int := 30 * 24 * 3600

/-- The OAuth2 server's in-memory client map. -/
abbrev ClientMap := List (GoStr × OAuth2Client)

/-- Embedding of `OAuth2Server.GetClient`. -/
def getClient (clients : ClientMap) (cid : GoStr) : Option OAuth2Client :=
  match clients.find? (fun p => p.1 = cid) with
  | some p => some p.2
  | none => none

/-- The OAuth2 error values (the `fmt.Errorf` messages). -/
inductive OAuth2Err where
  | clientNotFound
  | invalidRedirectURI
  | invalidClientCredentials
  | invalidAuthorizationCode
  | invalidCodeData
  | codeAlreadyUsed
  | clientMismatch
  | redirectMismatch
  | codeExpired
  | invalidAccessToken
  | invalidTokenData
  | invalidRefreshToken
  | invalidRefreshTokenData
deriving DecidableEq

/-- Embedding of `OAuth2Server.GenerateAuthorizationCode` with the random 64-char hex
code passed in: validate the client and the redirect URI against the
exact-match allow-list, then store the code record (ttl 10min). -/
def generateAuthorizationCode (clients : ClientMap) (s : Store)
    (clientID redirectURI userID : GoStr) (scopes : List GoStr)
    (code : GoStr) (now : Int) : Except OAuth2Err (AuthorizationCode × Store) :=
  match getClient clients clientID with
  | none => .error .clientNotFound
  | some client =>
    if redirectURI ∈ client.redirectURIs then
      let authCode : AuthorizationCode :=
        ⟨code, clientID, redirectURI, userID, scopes, now, codeExpirationSecs, false⟩
      .ok (authCode,
        s.set (oauth2CodeKey code) (Val.vauthCode authCode) codeExpirationSecs now)
    else .error .invalidRedirectURI

/-- Embedding of `OAuth2Server.generateAccessToken` with the two random hex strings
passed in: build the token record and store it under both the access-
token key (ttl 2h) and the refresh-token key (ttl 30 days). -/
def generateAccessToken (s : Store) (userID clientID : GoStr)
    (scopes : List GoStr) (aTok rTok : GoStr) (now : Int) :
    AccessToken × Store :=
  let token : AccessToken :=
    ⟨aTok, s2l "Bearer", tokenExpirationSecs, rTok, scopes, userID, clientID⟩
  let s := s.set (oauth2TokenKey aTok) (Val.vaccessToken token)
      tokenExpirationSecs now
  let s := s.set (oauth2RefreshKey rTok) (Val.vaccessToken token)
      refreshTTLSecs now
  (token, s)

/-- Embedding of `OAuth2Server.ExchangeCodeForToken` (the fresh access/refresh token
random strings are passed in).  The result keeps the store on error
paths as well, because the expired-code path deletes the code record. -/
def exchangeCodeForToken (clients : ClientMap) (s : Store)
    (code clientID clientSecret redirectURI : GoStr)
    (aTok rTok : GoStr) (now : Int) : Except OAuth2Err AccessToken × Store :=
  match getClient clients clientID with
  | none => (.error .clientNotFound, s)
  | some client =>
    if client.clientSecret ≠ clientSecret then (.error .invalidClientCredentials, s)
    else match s.get (oauth2CodeKey code) now with
    | none => (.error .invalidAuthorizationCode, s)
    | some (Val.vauthCode authCode) =>
      if authCode.used then (.error .codeAlreadyUsed, s)
      else if authCode.clientID ≠ clientID then (.error .clientMismatch, s)
      else if authCode.redirectURI ≠ redirectURI then (.error .redirectMismatch, s)
      else if now > authCode.createTime + authCode.expiresIn then
        (.error .codeExpired, s.delete (oauth2CodeKey code))
      else
        let s := s.set (oauth2CodeKey code)
            (Val.vauthCode { authCode with used := true }) 60 now
        let (tok, s) :=
          generateAccessToken s authCode.userID authCode.clientID
            authCode.scopes aTok rTok now
        (.ok tok, s)
    | some _ => (.error .invalidCodeData, s)

/-- Embedding of `OAuth2Server.ValidateAccessToken` (read-only). -/
def validateAccessToken (s : Store) (tokenString : GoStr) (now : Int) :
    Except OAuth2Err AccessToken :=
  match s.get (oauth2TokenKey tokenString) now with
  | none => .error .invalidAccessToken
  | some (Val.vaccessToken t) => .ok t
  | some _ => .error .invalidTokenData

/-- Embedding of `OAuth2Server.RefreshAccessToken` (fresh random strings passed in):
look up the record under the refresh key, check the client, delete the
old access-token key, and mint a brand-new pair.  The refresh key that
was presented is itself never deleted. -/
def oauth2RefreshAccessToken (clients : ClientMap) (s : Store)
    (refreshToken clientID clientSecret : GoStr)
    (aTok rTok : GoStr) (now : Int) : Except OAuth2Err AccessToken × Store :=
  match getClient clients clientID with
  | none => (.error .clientNotFound, s)
  | some client =>
    if client.clientSecret ≠ clientSecret then (.error .invalidClientCredentials, s)
    else match s.get (oauth2RefreshKey refreshToken) now with
    | none => (.error .invalidRefreshToken, s)
    | some (Val.vaccessToken oldToken) =>
      if oldToken.clientID ≠ clientID then (.error .clientMismatch, s)
      else
        let s := s.delete (oauth2TokenKey oldToken.token)
        let (tok, s) :=
          generateAccessToken s oldToken.userID oldToken.clientID
            oldToken.scopes aTok rTok now
        (.ok tok, s)
    | some _ => (.error .invalidRefreshTokenData, s)

/-! ## Token generator (`core/token/token.go`)

The generator is a switch over the configured style.  The random source
is modelled by a flag (`randFails`) plus the string the successful
source would produce (`rnd`; the formatting of the raw random bytes into
the final token string is abstracted into that parameter).  The UUID
branch calls `uuid.New()`, which is `uuid.Must(uuid.NewRandom())` in
github.com/google/uuid and panics when `crypto/rand` fails — it has no
error result. -/

/-- The possible outcomes of `Generator.Generate`. -/
inductive GenOutcome where
  | ok (token : GoStr)
  | err
  | panicked
deriving DecidableEq

/-- Embedding of `Generator.generateUUID`: `uuid.New().String(), nil`; on randomness
failure `uuid.Must` panics instead of returning an error. -/
def generateUUID (randFails : Bool) (rnd : GoStr) : GenOutcome :=
  if randFails then .panicked else .ok rnd

/-- Embedding of `Generator.generateSimple` and the fixed-length random styles:
`rand.Read` failure is returned as an error. -/
def generateSimple (randFails : Bool) (rnd : GoStr) : GenOutcome :=
  if randFails then .err else .ok rnd

/-- Embedding of `Generator.generateJWT`: HMAC-SHA256 signing over the claims; no
randomness is consumed. -/
def generateJWT (rnd : GoStr) : GenOutcome := .ok rnd

/-- Embedding of `Generator.generateHash`: 16 random bytes hashed with the login id,
device and time; `rand.Read` failure is returned as an error. -/
def generateHash (randFails : Bool) (rnd : GoStr) : GenOutcome :=
  if randFails then .err else .ok rnd

/-- Embedding of `Generator.generateTimestamp`: 8 random bytes; `rand.Read` failure
is returned as an error. -/
def generateTimestamp (randFails : Bool) (rnd : GoStr) : GenOutcome :=
  if randFails then .err else .ok rnd

/-- Embedding of `Generator.generateTik`: 11 uniform samples via `rand.Int`; a
failure of the random source is returned as an error. -/
def generateTik (randFails : Bool) (rnd : GoStr) : GenOutcome :=
  if randFails then .err else .ok rnd

/-- Embedding of `Generator.Generate`: the switch over `config.TokenStyle` (a string;
unknown styles fall through to the UUID branch). -/
def tokenGenerate (style : GoStr) (randFails : Bool) (rnd : GoStr) : GenOutcome :=
  if style = s2l "uuid" then generateUUID randFails rnd
  else if style = s2l "simple" then generateSimple randFails rnd
  else if style = s2l "random32" then generateSimple randFails rnd
  else if style = s2l "random64" then generateSimple randFails rnd
  else if style = s2l "random128" then generateSimple randFails rnd
  else if style = s2l "jwt" then generateJWT rnd
  else if style = s2l "hash" then generateHash randFails rnd
  else if style = s2l "timestamp" then generateTimestamp randFails rnd
  else if style = s2l "tik" then generateTik randFails rnd
  else generateUUID randFails rnd

/-! ## Supporting lemmas -/

/-- Embedding of `Option.some`-extraction for `Except` results, used to state concrete
evaluations. -/
def exceptOk? {ε α : Type} : Except ε α → Option α
  | .ok a => some a
  | .error _ => none

theorem find_of_find_erase {s : Store} {k₀ k : GoStr} {it : Item}
    (h : Store.find (Store.erase s k₀) k = some it) :
    Store.find s k = some it ∧ k ≠ k₀ := by
  by_cases hk : k = k₀
  · rw [hk, Store.find_erase_self] at h; exact absurd h (by simp)
  · rw [Store.find_erase_ne s hk] at h; exact ⟨h, hk⟩

theorem existsKey_of_getTokenInfo {s : Store} {tv : GoStr} {now : Int}
    {info : TokenInfo} (h : getTokenInfo s tv now = some info) :
    Store.existsKey s (getTokenKey tv) now = true := by
  unfold getTokenInfo Store.get at h
  unfold Store.existsKey
  cases hf : Store.find s (getTokenKey tv) with
  | none => rw [hf] at h; simp at h
  | some it =>
    rw [hf] at h
    by_cases he : it.isExpired now = true
    · simp [he] at h
    · simp [he]

/-- C8: the in-memory backend reproduces the storage-contract sentinels:
a key stored with ttl `0` never expires (`Get` returns the value,
`Exists` is true and `TTL` reports `-1` at every later time), while
`TTL` of an absent key reports `-2` (with an error) and `TTL` of an
expired key reports `-2`. -/
theorem memoryStorage_sentinels (s : Store) (k : GoStr) (v : Val) (now later : Int) :
    Store.get (Store.set s k v 0 now) k later = some v
    ∧ Store.existsKey (Store.set s k v 0 now) k later = true
    ∧ Store.ttl (Store.set s k v 0 now) k later = (-1, false)
    ∧ (∀ t : Store, Store.find t k = none → Store.ttl t k later = (-2, true))
    ∧ (∀ (t : Store) (it : Item), Store.find t k = some it →
        it.expiration ≠ 0 → later > it.expiration →
        Store.ttl t k later = (-2, false)) := by
  refine ⟨?_, ?_, ?_, ?_, ?_⟩
  · simp [Store.get, Item.isExpired]
  · simp [Store.existsKey, Item.isExpired]
  · simp [Store.ttl]
  · intro t h; simp [Store.ttl, h]
  · intro t it hf hne hlt
    simp only [Store.ttl, hf]
    rw [if_neg hne, if_pos (by omega)]

/-- C8 witness: concrete sentinel runs. -/
theorem memoryStorage_sentinels_witness :
    Store.get (Store.set [] (s2l "k") (Val.vint 7) 0 5) (s2l "k") 1000 = some (Val.vint 7)
    ∧ Store.ttl (Store.set [] (s2l "k") (Val.vint 7) 0 5) (s2l "k") 1000 = (-1, false)
    ∧ Store.ttl [] (s2l "k") 1000 = (-2, true)
    ∧ Store.ttl [(s2l "k", ⟨Val.vint 7, 50⟩)] (s2l "k") 1000 = (-2, false) := by
  obtain ⟨h1, _, h3, h4, h5⟩ := memoryStorage_sentinels [] (s2l "k") (Val.vint 7) 5 1000
  exact ⟨h1, h3, h4 [] rfl,
    h5 [(s2l "k", ⟨Val.vint 7, 50⟩)] ⟨Val.vint 7, 50⟩ (by decide) (by decide) (by decide)⟩

/-- C5: `IsLogin` is false for the empty token and for a token without a
stored record; with an inactivity timeout configured and exceeded, it
force-deletes the token record (`LogoutByToken`) and returns false. -/
theorem isLogin_empty_missing_inactivity (cfg : Config) (s : Store) (tv : GoStr)
    (now : Int) (info : TokenInfo)
    (hne : tv ≠ [])
    (hinfo : getTokenInfo s tv now = some info)
    (hato : cfg.activeTimeout > 0)
    (hel : now - info.activeTime > cfg.activeTimeout) :
    isLogin cfg s [] now = (false, s)
    ∧ (∀ (s' : Store) (tv' : GoStr),
        Store.existsKey s' (getTokenKey tv') now = false →
        (isLogin cfg s' tv' now).1 = false)
    ∧ isLogin cfg s tv now = (false, logoutByToken s tv)
    ∧ Store.find (isLogin cfg s tv now).2 (getTokenKey tv) = none := by
  have hex := existsKey_of_getTokenInfo hinfo
  have hmain : isLogin cfg s tv now = (false, logoutByToken s tv) := by
    unfold isLogin
    rw [if_neg hne, hex]
    simp only [Bool.not_true, Bool.false_eq_true, if_false]
    rw [if_pos hato, hinfo]
    simp [hel]
  refine ⟨by simp [isLogin], ?_, hmain, ?_⟩
  · intro s' tv' hmiss
    unfold isLogin
    by_cases h : tv' = []
    · simp [h]
    · rw [if_neg h, hmiss]; simp
  · rw [hmain]
    exact Store.find_delete_self s (getTokenKey tv)

/-- C5 witness: a token whose `ActiveTime` lies beyond the configured
inactivity timeout is force-logged-out. -/
theorem isLogin_empty_missing_inactivity_witness :
    isLogin ⟨3600, 10, true, false⟩
        (saveTokenInfo [] (s2l "tok") ⟨s2l "alice", s2l "web", 0, 0, []⟩ 3600 0)
        (s2l "tok") 100
      = (false, logoutByToken
          (saveTokenInfo [] (s2l "tok") ⟨s2l "alice", s2l "web", 0, 0, []⟩ 3600 0)
          (s2l "tok")) := by
  exact (isLogin_empty_missing_inactivity ⟨3600, 10, true, false⟩
    (saveTokenInfo [] (s2l "tok") ⟨s2l "alice", s2l "web", 0, 0, []⟩ 3600 0)
    (s2l "tok") 100 ⟨s2l "alice", s2l "web", 0, 0, []⟩
    (by decide) (by decide) (by decide) (by decide)).2.2.1

/-- C7: a generated (non-empty) nonce verified within its ttl verifies
once — the record is deleted — and every later `Verify` of the same
nonce returns false; `Verify` is false for the empty string, and false
for any absent (never generated or expired) nonce. -/
theorem nonce_generate_verify_once (s : Store) (n : GoStr) (t0 t1 t2 : Int)
    (hn : n ≠ [])
    (ht1 : t1 ≤ t0 + nonceTTL) :
    (nonceVerify (nonceGenerate s n t0).2 n t1).1 = true
    ∧ Store.find (nonceVerify (nonceGenerate s n t0).2 n t1).2 (nonceKey n) = none
    ∧ (nonceVerify (nonceVerify (nonceGenerate s n t0).2 n t1).2 n t2).1 = false
    ∧ (∀ t : Store, (nonceVerify t [] t2).1 = false)
    ∧ (∀ (t : Store) (m : GoStr), Store.existsKey t (nonceKey m) t2 = false →
        (nonceVerify t m t2).1 = false) := by
  have hex : Store.existsKey (nonceGenerate s n t0).2 (nonceKey n) t1 = true := by
    unfold nonceTTL at ht1
    unfold nonceGenerate nonceTTL
    simp only [Store.existsKey, Store.find_set_self]
    have h300 : ((300 : Int) > 0) = True := by norm_num
    simp only [h300, if_true, Item.isExpired]
    split
    · rfl
    · simp
      omega
  have hv : nonceVerify (nonceGenerate s n t0).2 n t1
      = (true, Store.delete (nonceGenerate s n t0).2 (nonceKey n)) := by
    unfold nonceVerify
    rw [if_neg hn, hex]
    simp
  refine ⟨by rw [hv], by rw [hv]; exact Store.find_delete_self _ _, ?_, ?_, ?_⟩
  · rw [hv]
    unfold nonceVerify
    rw [if_neg hn]
    simp [Store.existsKey, Store.find_delete_self]
  · intro t; simp [nonceVerify]
  · intro t m hmiss
    unfold nonceVerify
    by_cases h : m = []
    · simp [h]
    · rw [if_neg h, hmiss]; simp

/-- C6: `Logout` deletes the token record and the mapping when the
mapping is present, never reports an error, leaves no token record for
the pair (the pair's token record being the one the mapping names), and
a second `Logout` is a state-preserving no-op. -/
theorem logout_deletes_and_idempotent (s : Store) (l d tv : GoStr) (now now2 : Int)
    (hmap : Store.get s (getAccountKey l d) now = some (Val.vstr tv))
    (huniq : ∀ (k : GoStr) (it : Item) (info : TokenInfo),
        Store.find s k = some it → it.value = Val.vtokenInfo info →
        info.loginID = l → info.device = d → k = getTokenKey tv) :
    (∀ (t : Store) (l' d' : GoStr) (m : Int), (logout t l' d' m).1 = none)
    ∧ Store.find (logout s l d now).2 (getTokenKey tv) = none
    ∧ Store.find (logout s l d now).2 (getAccountKey l d) = none
    ∧ (∀ (k : GoStr) (it : Item) (info : TokenInfo),
        Store.find (logout s l d now).2 k = some it →
        it.value = Val.vtokenInfo info →
        info.loginID = l → info.device = d → False)
    ∧ logout (logout s l d now).2 l d now2 = (none, (logout s l d now).2) := by
  have hl : (logout s l d now).2
      = Store.delete (Store.delete s (getTokenKey tv)) (getAccountKey l d) := by
    unfold logout; rw [hmap]
  refine ⟨?_, ?_, ?_, ?_, ?_⟩
  · intro t l' d' m
    unfold logout
    split <;> rfl
  · rw [hl, Store.find_delete_ne _ (tokenKey_ne_accountKey tv l d),
      Store.find_delete_self]
  · rw [hl, Store.find_delete_self]
  · intro k it info hfind hval hlid hdev
    rw [hl] at hfind
    obtain ⟨hf1, _⟩ := find_of_find_erase hfind
    obtain ⟨hf2, hne2⟩ := find_of_find_erase hf1
    exact hne2 (huniq k it info hf2 hval hlid hdev)
  · have hget2 : Store.get (logout s l d now).2 (getAccountKey l d) now2 = none := by
      rw [hl]; unfold Store.get; rw [Store.find_delete_self]
    set t1 := (logout s l d now).2 with ht1
    unfold logout
    rw [hget2]

/-- C6 witness: a concrete login-then-double-logout run. -/
theorem logout_deletes_and_idempotent_witness :
    Store.find (logout
        (Store.set (saveTokenInfo [] (s2l "tok") ⟨s2l "alice", s2l "web", 0, 0, []⟩ 0 0)
          (getAccountKey (s2l "alice") (s2l "web")) (Val.vstr (s2l "tok")) 0 0)
        (s2l "alice") (s2l "web") 5).2 (getTokenKey (s2l "tok")) = none
    ∧ logout (logout
        (Store.set (saveTokenInfo [] (s2l "tok") ⟨s2l "alice", s2l "web", 0, 0, []⟩ 0 0)
          (getAccountKey (s2l "alice") (s2l "web")) (Val.vstr (s2l "tok")) 0 0)
        (s2l "alice") (s2l "web") 5).2 (s2l "alice") (s2l "web") 6
      = (none, (logout
          (Store.set (saveTokenInfo [] (s2l "tok") ⟨s2l "alice", s2l "web", 0, 0, []⟩ 0 0)
            (getAccountKey (s2l "alice") (s2l "web")) (Val.vstr (s2l "tok")) 0 0)
          (s2l "alice") (s2l "web") 5).2) := by
  have huniq : ∀ (k : GoStr) (it : Item) (info : TokenInfo),
      Store.find (Store.set (saveTokenInfo [] (s2l "tok") ⟨s2l "alice", s2l "web", 0, 0, []⟩ 0 0)
        (getAccountKey (s2l "alice") (s2l "web")) (Val.vstr (s2l "tok")) 0 0) k = some it →
      it.value = Val.vtokenInfo info →
      info.loginID = s2l "alice" → info.device = s2l "web" →
      k = getTokenKey (s2l "tok") := by
    intro k it info hfind hval hlid hdev
    have hs : Store.set (saveTokenInfo [] (s2l "tok") ⟨s2l "alice", s2l "web", 0, 0, []⟩ 0 0)
        (getAccountKey (s2l "alice") (s2l "web")) (Val.vstr (s2l "tok")) 0 0
        = [(getAccountKey (s2l "alice") (s2l "web"), ⟨Val.vstr (s2l "tok"), 0⟩),
           (getTokenKey (s2l "tok"), ⟨Val.vtokenInfo ⟨s2l "alice", s2l "web", 0, 0, []⟩, 0⟩)] := by
      decide
    rw [hs] at hfind
    unfold Store.find at hfind
    split at hfind
    · cases hfind
      simp at hval
    · unfold Store.find at hfind
      split at hfind
      · rename_i h2'
        exact h2'.symm
      · cases hfind
  obtain ⟨_, h2, _, _, h5⟩ := logout_deletes_and_idempotent
    (Store.set (saveTokenInfo [] (s2l "tok") ⟨s2l "alice", s2l "web", 0, 0, []⟩ 0 0)
      (getAccountKey (s2l "alice") (s2l "web")) (Val.vstr (s2l "tok")) 0 0)
    (s2l "alice") (s2l "web") (s2l "tok") 5 6 (by decide) huniq
  exact ⟨h2, h5⟩

/-- C4: `Kickout` deletes only the token record reachable from the
account→token mapping — every other key, in particular the mapping row
itself, is untouched — after which `IsLogin` of the old token is false
and a later `Login` with concurrent login allowed succeeds despite the
stale mapping row. -/
theorem kickout_leaves_mapping (cfg : Config) (s : Store) (l d tv tv2 : GoStr)
    (now now2 : Int)
    (hmap : Store.get s (getAccountKey l d) now = some (Val.vstr tv))
    (hconc : cfg.isConcurrent = true)
    (hdis : isDisable s l now2 = false) :
    Store.find (kickout s l d now) (getTokenKey tv) = none
    ∧ (∀ k, k ≠ getTokenKey tv →
        Store.find (kickout s l d now) k = Store.find s k)
    ∧ Store.find (kickout s l d now) (getAccountKey l d)
        = Store.find s (getAccountKey l d)
    ∧ (isLogin cfg (kickout s l d now) tv now2).1 = false
    ∧ ∃ s2, login cfg (kickout s l d now) l d tv2 now2 = .ok (tv2, s2) := by
  have hk : kickout s l d now = Store.delete s (getTokenKey tv) := by
    unfold kickout; rw [hmap]
  have hframe : ∀ k, k ≠ getTokenKey tv →
      Store.find (kickout s l d now) k = Store.find s k := by
    intro k hne
    rw [hk]; exact Store.find_delete_ne s hne
  have hdis1 : isDisable (kickout s l d now) l now2 = false := by
    unfold isDisable Store.existsKey at hdis ⊢
    rw [hframe (getDisableKey l) (Ne.symm (tokenKey_ne_disableKey tv l))]
    exact hdis
  refine ⟨?_, hframe, ?_, ?_, ?_⟩
  · rw [hk]; exact Store.find_delete_self s (getTokenKey tv)
  · exact hframe _ (Ne.symm (tokenKey_ne_accountKey tv l d))
  · by_cases hne : tv = []
    · simp [isLogin, hne]
    · have hmiss : Store.existsKey (kickout s l d now) (getTokenKey tv) now2 = false := by
        unfold Store.existsKey
        rw [hk, Store.find_delete_self]
      unfold isLogin
      rw [if_neg hne, hmiss]
      simp
  · unfold login
    rw [hdis1]
    simp only [hconc, Bool.not_true, Bool.false_eq_true, if_false]
    exact ⟨_, rfl⟩

/-- C4 witness: concrete kickout of a logged-in pair followed by a
fresh login with concurrent login allowed. -/
theorem kickout_leaves_mapping_witness :
    Store.find (kickout
        (Store.set (saveTokenInfo [] (s2l "tok") ⟨s2l "alice", s2l "web", 0, 0, []⟩ 0 0)
          (getAccountKey (s2l "alice") (s2l "web")) (Val.vstr (s2l "tok")) 0 0)
        (s2l "alice") (s2l "web") 5) (getTokenKey (s2l "tok")) = none
    ∧ ∃ s2, login ⟨0, -1, true, true⟩ (kickout
        (Store.set (saveTokenInfo [] (s2l "tok") ⟨s2l "alice", s2l "web", 0, 0, []⟩ 0 0)
          (getAccountKey (s2l "alice") (s2l "web")) (Val.vstr (s2l "tok")) 0 0)
        (s2l "alice") (s2l "web") 5) (s2l "alice") (s2l "web") (s2l "tok2") 6
        = .ok (s2l "tok2", s2) := by
  obtain ⟨h1, _, _, _, h5⟩ := kickout_leaves_mapping ⟨0, -1, true, true⟩
    (Store.set (saveTokenInfo [] (s2l "tok") ⟨s2l "alice", s2l "web", 0, 0, []⟩ 0 0)
      (getAccountKey (s2l "alice") (s2l "web")) (Val.vstr (s2l "tok")) 0 0)
    (s2l "alice") (s2l "web") (s2l "tok") (s2l "tok2") 5 6
    (by decide) rfl (by decide)
  exact ⟨h1, h5⟩

/-- A freshly set item is not expired at any time up to `now + ttl`
(and never, when the ttl is non-positive). -/
theorem Item.isExpired_fresh {ttl now t : Int} (v : Val) (h : ttl ≤ 0 ∨ t ≤ now + ttl) :
    (Item.mk v (if ttl > 0 then now + ttl else 0)).isExpired t = false := by
  unfold Item.isExpired
  by_cases hp : ttl > 0
  · rw [if_pos hp]
    rcases h with h | h
    · omega
    · split
      · rfl
      · simp; omega
  · rw [if_neg hp]
    simp

theorem Store.get_set_self (s : Store) (k : GoStr) (v : Val) {ttl now t : Int}
    (h : ttl ≤ 0 ∨ t ≤ now + ttl) :
    Store.get (Store.set s k v ttl now) k t = some v := by
  unfold Store.get
  rw [Store.find_set_self]
  simp [Item.isExpired_fresh v h]

theorem Store.get_set_ne (s : Store) {k k' : GoStr} (v : Val) (ttl now t : Int)
    (h : k' ≠ k) : Store.get (Store.set s k v ttl now) k' t = Store.get s k' t := by
  unfold Store.get
  rw [Store.find_set_ne s v ttl now h]

theorem Store.get_delete_self (s : Store) (k : GoStr) (t : Int) :
    Store.get (Store.delete s k) k t = none := by
  unfold Store.get
  rw [Store.find_delete_self]

theorem Store.get_delete_ne (s : Store) {k k' : GoStr} (t : Int) (h : k' ≠ k) :
    Store.get (Store.delete s k) k' t = Store.get s k' t := by
  unfold Store.get
  rw [Store.find_delete_ne s h]

theorem nodup_keys_set (s : Store) (k : GoStr) (v : Val) (ttl now : Int)
    (h : (s.map Prod.fst).Nodup) :
    ((Store.set s k v ttl now).map Prod.fst).Nodup := by
  unfold Store.set Store.erase
  simp only [List.map_cons]
  refine List.Nodup.cons ?_ ?_
  · intro hmem
    simp only [List.mem_map] at hmem
    obtain ⟨p, hp, hpk⟩ := hmem
    have hfilt := List.of_mem_filter hp
    simp only [decide_eq_true_eq] at hfilt
    exact hfilt hpk
  · exact h.sublist ((List.filter_sublist s).map Prod.fst)

theorem countP_eq_key_le_one {l : List GoStr} (k : GoStr) (h : l.Nodup) :
    l.countP (fun x => decide (x = k)) ≤ 1 := by
  induction l with
  | nil => simp
  | cons a t ih =>
    rw [List.countP_cons]
    rcases List.nodup_cons.mp h with ⟨ha, ht⟩
    by_cases hak : a = k
    · have hz : t.countP (fun x => decide (x = k)) = 0 := by
        rw [List.countP_eq_zero]
        intro x hx
        simp only [decide_eq_true_eq]
        intro he
        exact ha ((he.trans hak.symm) ▸ hx)
      simp [hak, hz]
    · simp [hak, ih ht]

theorem keysOf_count_le_one (s : Store) (pat k : GoStr) (now : Int)
    (h : (s.map Prod.fst).Nodup) :
    (Store.keysOf s pat now).countP (fun x => decide (x = k)) ≤ 1 := by
  have hsub : List.Sublist (Store.keysOf s pat now) (s.map Prod.fst) := by
    unfold Store.keysOf
    exact (List.filter_sublist s).map Prod.fst
  exact countP_eq_key_le_one k (h.sublist hsub)

/-- C10: the account→token mapping lives at the single key
`satoken:account:<loginID>:<device>`: a successful `Login` (concurrent
login allowed) overwrites that key with the fresh token while leaving
every other token record untouched, and the account-key enumeration that
`GetTokenValueListByLoginID` performs yields each pair's key — hence at
most one token per device — at most once. -/
theorem login_overwrites_single_mapping_key (cfg : Config) (s : Store)
    (l d tv : GoStr) (now : Int)
    (hdis : isDisable s l now = false)
    (hconc : cfg.isConcurrent = true)
    (hnd : (s.map Prod.fst).Nodup) :
    ∃ s' : Store, login cfg s l d tv now = .ok (tv, s')
    ∧ Store.get s' (getAccountKey l d) now = some (Val.vstr tv)
    ∧ (∀ tv', tv' ≠ tv →
        Store.find s' (getTokenKey tv') = Store.find s (getTokenKey tv'))
    ∧ (∀ d' : GoStr,
        (Store.keysOf s' (s2l "satoken:" ++ s2l "account:" ++ l ++ s2l ":*") now).countP
          (fun x => decide (x = getAccountKey l d')) ≤ 1)
    ∧ getTokenValueListByLoginID s' l now =
        (Store.keysOf s' (s2l "satoken:" ++ s2l "account:" ++ l ++ s2l ":*") now).filterMap
          (fun k => match Store.get s' k now with
            | some (Val.vstr t) => some t
            | _ => none) := by
  have hmain : login cfg s l d tv now = .ok (tv,
      Store.set (Store.set
        (saveTokenInfo s tv ⟨l, d, now, now, []⟩
          (if cfg.timeout > 0 then cfg.timeout else 0) now)
        (getAccountKey l d) (Val.vstr tv)
        (if cfg.timeout > 0 then cfg.timeout else 0) now)
      (getSessionKey l)
      (Val.vsession l now
        [(s2l "loginId", SVal.vstr l), (s2l "device", SVal.vstr d),
         (s2l "loginTime", SVal.vint now)]) 0 now) := by
    unfold login
    rw [hdis]
    simp [hconc]
  refine ⟨_, hmain, ?_, ?_, ?_, rfl⟩
  · rw [Store.get_set_ne _ _ _ _ _ (accountKey_ne_sessionKey l d l)]
    exact Store.get_set_self _ _ _ (by split <;> omega)
  · intro tv' hne
    rw [Store.find_set_ne _ _ _ _ (tokenKey_ne_sessionKey tv' l),
      Store.find_set_ne _ _ _ _ (tokenKey_ne_accountKey tv' l d)]
    unfold saveTokenInfo
    rw [Store.find_set_ne _ _ _ _ (fun he => hne (getTokenKey_inj he))]
  · intro d'
    refine keysOf_count_le_one _ _ _ _ ?_
    exact nodup_keys_set _ _ _ _ _
      (nodup_keys_set _ _ _ _ _ (nodup_keys_set _ _ _ _ _ hnd))

/-- C10 witness: a concrete login over a store already holding an older
token record for the pair. -/
theorem login_overwrites_single_mapping_key_witness :
    ∃ s' : Store, login ⟨0, -1, true, true⟩
        (saveTokenInfo [] (s2l "old") ⟨s2l "alice", s2l "web", 0, 0, []⟩ 0 0)
        (s2l "alice") (s2l "web") (s2l "new") 5 = .ok (s2l "new", s')
      ∧ Store.get s' (getAccountKey (s2l "alice") (s2l "web")) 5
          = some (Val.vstr (s2l "new")) := by
  obtain ⟨s', h1, h2, _, _, _⟩ := login_overwrites_single_mapping_key
    ⟨0, -1, true, true⟩
    (saveTokenInfo [] (s2l "old") ⟨s2l "alice", s2l "web", 0, 0, []⟩ 0 0)
    (s2l "alice") (s2l "web") (s2l "new") 5 (by decide) rfl (by decide)
  exact ⟨s', h1, h2⟩

/-- C9 (code evaluation at the failing input): with a failing random
source, the default `uuid` style — and any unknown style, which falls
through to the UUID branch — panics via `uuid.Must` instead of returning
an error, while every other randomness-consuming style reports the
failure as an error result. -/
theorem tokenGenerate_uuid_panics_on_rand_failure :
    tokenGenerate (s2l "uuid") true (s2l "x") = .panicked
    ∧ GenOutcome.panicked ≠ GenOutcome.err
    ∧ tokenGenerate (s2l "unknown-style") true (s2l "x") = .panicked
    ∧ tokenGenerate (s2l "simple") true (s2l "x") = .err
    ∧ tokenGenerate (s2l "random32") true (s2l "x") = .err
    ∧ tokenGenerate (s2l "random64") true (s2l "x") = .err
    ∧ tokenGenerate (s2l "random128") true (s2l "x") = .err
    ∧ tokenGenerate (s2l "hash") true (s2l "x") = .err
    ∧ tokenGenerate (s2l "timestamp") true (s2l "x") = .err
    ∧ tokenGenerate (s2l "tik") true (s2l "x") = .err := by
  decide

/-- C1: a code minted by `GenerateAuthorizationCode` for a registered
client is exchangeable exactly once: an exchange with the correct
secret, matching client id and redirect URI before
`CreateTime + ExpiresIn` succeeds, and a replay of the same code while
the one-minute `Used = true` tombstone is live fails with the
already-used error, which is distinct from the not-found error. -/
theorem oauth2_code_exchanged_exactly_once
    (clients : ClientMap) (client : OAuth2Client) (s : Store)
    (cid cs uri uid : GoStr) (scopes : List GoStr)
    (code a1 r1 a2 r2 : GoStr) (t0 t1 t2 : Int)
    (hreg : getClient clients cid = some client)
    (hsec : client.clientSecret = cs)
    (huri : uri ∈ client.redirectURIs)
    (ht1 : t1 ≤ t0 + codeExpirationSecs)
    (ht2 : t2 ≤ t1 + 60) :
    ∃ (ac : AuthorizationCode) (s1 : Store) (tok : AccessToken) (s2 : Store),
      generateAuthorizationCode clients s cid uri uid scopes code t0 = .ok (ac, s1)
      ∧ ac.createTime = t0 ∧ ac.expiresIn = codeExpirationSecs ∧ ac.used = false
      ∧ exchangeCodeForToken clients s1 code cid cs uri a1 r1 t1 = (.ok tok, s2)
      ∧ tok.token = a1 ∧ tok.refreshToken = r1 ∧ tok.userID = uid
      ∧ (exchangeCodeForToken clients s2 code cid cs uri a2 r2 t2).1
          = .error .codeAlreadyUsed
      ∧ OAuth2Err.codeAlreadyUsed ≠ OAuth2Err.invalidAuthorizationCode := by
  have hnsec : ¬ (client.clientSecret ≠ cs) := by simp [hsec]
  have hgen : generateAuthorizationCode clients s cid uri uid scopes code t0
      = .ok ((⟨code, cid, uri, uid, scopes, t0, codeExpirationSecs, false⟩ : AuthorizationCode), (Store.set s (oauth2CodeKey code) (Val.vauthCode (⟨code, cid, uri, uid, scopes, t0, codeExpirationSecs, false⟩ : AuthorizationCode)) codeExpirationSecs t0)) := by
    unfold generateAuthorizationCode
    rw [hreg]
    dsimp only
    rw [if_pos huri]
  have hex1 : exchangeCodeForToken clients (Store.set s (oauth2CodeKey code) (Val.vauthCode (⟨code, cid, uri, uid, scopes, t0, codeExpirationSecs, false⟩ : AuthorizationCode)) codeExpirationSecs t0) code cid cs uri a1 r1 t1
      = (.ok (⟨a1, s2l "Bearer", tokenExpirationSecs, r1, scopes, uid, cid⟩ : AccessToken), (Store.set (Store.set (Store.set (Store.set s (oauth2CodeKey code) (Val.vauthCode (⟨code, cid, uri, uid, scopes, t0, codeExpirationSecs, false⟩ : AuthorizationCode)) codeExpirationSecs t0) (oauth2CodeKey code) (Val.vauthCode (⟨code, cid, uri, uid, scopes, t0, codeExpirationSecs, true⟩ : AuthorizationCode)) 60 t1) (oauth2TokenKey a1) (Val.vaccessToken (⟨a1, s2l "Bearer", tokenExpirationSecs, r1, scopes, uid, cid⟩ : AccessToken)) tokenExpirationSecs t1) (oauth2RefreshKey r1) (Val.vaccessToken (⟨a1, s2l "Bearer", tokenExpirationSecs, r1, scopes, uid, cid⟩ : AccessToken)) refreshTTLSecs t1)) := by
    unfold exchangeCodeForToken
    rw [hreg]
    dsimp only
    rw [if_neg hnsec, Store.get_set_self _ _ _ (Or.inr (by omega))]
    dsimp only
    rw [if_neg (by simp), if_neg (by simp), if_neg (by simp), if_neg (by omega)]
    rfl
  have hex2 : (exchangeCodeForToken clients (Store.set (Store.set (Store.set (Store.set s (oauth2CodeKey code) (Val.vauthCode (⟨code, cid, uri, uid, scopes, t0, codeExpirationSecs, false⟩ : AuthorizationCode)) codeExpirationSecs t0) (oauth2CodeKey code) (Val.vauthCode (⟨code, cid, uri, uid, scopes, t0, codeExpirationSecs, true⟩ : AuthorizationCode)) 60 t1) (oauth2TokenKey a1) (Val.vaccessToken (⟨a1, s2l "Bearer", tokenExpirationSecs, r1, scopes, uid, cid⟩ : AccessToken)) tokenExpirationSecs t1) (oauth2RefreshKey r1) (Val.vaccessToken (⟨a1, s2l "Bearer", tokenExpirationSecs, r1, scopes, uid, cid⟩ : AccessToken)) refreshTTLSecs t1) code cid cs uri a2 r2 t2).1
      = .error .codeAlreadyUsed := by
    unfold exchangeCodeForToken
    rw [hreg]
    dsimp only
    rw [if_neg hnsec,
      Store.get_set_ne _ _ _ _ _ (oauth2CodeKey_ne_refreshKey code r1),
      Store.get_set_ne _ _ _ _ _ (oauth2CodeKey_ne_tokenKey code a1),
      Store.get_set_self _ _ _ (Or.inr (by omega))]
    rfl
  exact ⟨(⟨code, cid, uri, uid, scopes, t0, codeExpirationSecs, false⟩ : AuthorizationCode), (Store.set s (oauth2CodeKey code) (Val.vauthCode (⟨code, cid, uri, uid, scopes, t0, codeExpirationSecs, false⟩ : AuthorizationCode)) codeExpirationSecs t0), (⟨a1, s2l "Bearer", tokenExpirationSecs, r1, scopes, uid, cid⟩ : AccessToken), (Store.set (Store.set (Store.set (Store.set s (oauth2CodeKey code) (Val.vauthCode (⟨code, cid, uri, uid, scopes, t0, codeExpirationSecs, false⟩ : AuthorizationCode)) codeExpirationSecs t0) (oauth2CodeKey code) (Val.vauthCode (⟨code, cid, uri, uid, scopes, t0, codeExpirationSecs, true⟩ : AuthorizationCode)) 60 t1) (oauth2TokenKey a1) (Val.vaccessToken (⟨a1, s2l "Bearer", tokenExpirationSecs, r1, scopes, uid, cid⟩ : AccessToken)) tokenExpirationSecs t1) (oauth2RefreshKey r1) (Val.vaccessToken (⟨a1, s2l "Bearer", tokenExpirationSecs, r1, scopes, uid, cid⟩ : AccessToken)) refreshTTLSecs t1),
    hgen, rfl, rfl, rfl, hex1, rfl, rfl, rfl, hex2, by decide⟩

/-- C1 witness: a concrete register/mint/exchange/replay run. -/
theorem oauth2_code_exchanged_exactly_once_witness :
    ∃ (ac : AuthorizationCode) (s1 : Store) (tok : AccessToken) (s2 : Store),
      generateAuthorizationCode [(s2l "cid", ⟨s2l "cid", s2l "sec", [s2l "https://cb"], [], []⟩)]
        [] (s2l "cid") (s2l "https://cb") (s2l "user1") [s2l "read"] (s2l "code1") 0
        = .ok (ac, s1)
      ∧ exchangeCodeForToken [(s2l "cid", ⟨s2l "cid", s2l "sec", [s2l "https://cb"], [], []⟩)]
          s1 (s2l "code1") (s2l "cid") (s2l "sec") (s2l "https://cb")
          (s2l "a1") (s2l "r1") 10 = (.ok tok, s2)
      ∧ (exchangeCodeForToken [(s2l "cid", ⟨s2l "cid", s2l "sec", [s2l "https://cb"], [], []⟩)]
          s2 (s2l "code1") (s2l "cid") (s2l "sec") (s2l "https://cb")
          (s2l "a2") (s2l "r2") 20).1 = .error .codeAlreadyUsed := by
  obtain ⟨ac, s1, tok, s2, h1, _, _, _, h5, _, _, _, h9, _⟩ :=
    oauth2_code_exchanged_exactly_once
      [(s2l "cid", ⟨s2l "cid", s2l "sec", [s2l "https://cb"], [], []⟩)]
      ⟨s2l "cid", s2l "sec", [s2l "https://cb"], [], []⟩ []
      (s2l "cid") (s2l "sec") (s2l "https://cb") (s2l "user1") [s2l "read"]
      (s2l "code1") (s2l "a1") (s2l "r1") (s2l "a2") (s2l "r2") 0 10 20
      (by decide) rfl (by decide) (by decide) (by decide)
  exact ⟨ac, s1, tok, s2, h1, h5, h9⟩

/-- C2 counterexample: after a successful `RefreshAccessToken(r1)` the
old refresh token `r1` is still usable — a second refresh with `r1`
also succeeds — because the OAuth2 server never deletes the old refresh
key; this refutes the claim that the old pair is fully invalidated with
single-use refresh tokens. -/
theorem oauth2_old_refresh_token_still_usable :
    exceptOk? (oauth2RefreshAccessToken
        [(s2l "cid", ⟨s2l "cid", s2l "sec", [s2l "https://cb"], [], []⟩)]
        (generateAccessToken [] (s2l "u1") (s2l "cid") [] (s2l "a1") (s2l "r1") 0).2
        (s2l "r1") (s2l "cid") (s2l "sec") (s2l "a2") (s2l "r2") 10).1
      = some ⟨s2l "a2", s2l "Bearer", tokenExpirationSecs, s2l "r2", [], s2l "u1", s2l "cid"⟩
    ∧ exceptOk? (oauth2RefreshAccessToken
        [(s2l "cid", ⟨s2l "cid", s2l "sec", [s2l "https://cb"], [], []⟩)]
        (oauth2RefreshAccessToken
          [(s2l "cid", ⟨s2l "cid", s2l "sec", [s2l "https://cb"], [], []⟩)]
          (generateAccessToken [] (s2l "u1") (s2l "cid") [] (s2l "a1") (s2l "r1") 0).2
          (s2l "r1") (s2l "cid") (s2l "sec") (s2l "a2") (s2l "r2") 10).2
        (s2l "r1") (s2l "cid") (s2l "sec") (s2l "a3") (s2l "r3") 20).1
      = some ⟨s2l "a3", s2l "Bearer", tokenExpirationSecs, s2l "r3", [], s2l "u1", s2l "cid"⟩ := by
  decide

/-- C2 (amended): a successful `RefreshAccessToken(r1)` mints a fresh
pair `(a2, r2)` with `a2 ≠ a1`, `r2 ≠ r1`, deletes the old access-token
record — so `ValidateAccessToken(a1)` fails afterwards — but leaves the
record under `r1`'s refresh key untouched, so a further refresh with
`r1` succeeds: the old refresh token is not invalidated. -/
theorem oauth2_refresh_rotation_amended
    (clients : ClientMap) (client : OAuth2Client) (s : Store)
    (cid cs a1 r1 a2 r2 a3 r3 : GoStr) (old : AccessToken) (it : Item)
    (t1 t2 : Int)
    (hreg : getClient clients cid = some client)
    (hsec : client.clientSecret = cs)
    (hfind : Store.find s (oauth2RefreshKey r1) = some it)
    (hval : it.value = Val.vaccessToken old)
    (hexp1 : it.isExpired t1 = false)
    (hcl : old.clientID = cid)
    (htok : old.token = a1)
    (ha : a2 ≠ a1)
    (hr : r2 ≠ r1)
    (hexp2 : it.isExpired t2 = false) :
    ∃ s' : Store,
      oauth2RefreshAccessToken clients s r1 cid cs a2 r2 t1
        = (.ok ⟨a2, s2l "Bearer", tokenExpirationSecs, r2, old.scopes, old.userID, old.clientID⟩, s')
      ∧ (∀ t' : Int, validateAccessToken s' a1 t' = .error .invalidAccessToken)
      ∧ Store.find s' (oauth2RefreshKey r1) = some it
      ∧ (oauth2RefreshAccessToken clients s' r1 cid cs a3 r3 t2).1
          = .ok ⟨a3, s2l "Bearer", tokenExpirationSecs, r3, old.scopes, old.userID, old.clientID⟩ := by
  have hnsec : ¬ (client.clientSecret ≠ cs) := by simp [hsec]
  have hncl : ¬ (old.clientID ≠ cid) := by simp [hcl]
  have hget1 : Store.get s (oauth2RefreshKey r1) t1 = some (Val.vaccessToken old) := by
    unfold Store.get
    rw [hfind]
    simp [hval, hexp1]
  have hmain : oauth2RefreshAccessToken clients s r1 cid cs a2 r2 t1
      = (.ok ⟨a2, s2l "Bearer", tokenExpirationSecs, r2, old.scopes, old.userID, old.clientID⟩,
        Store.set (Store.set (Store.delete s (oauth2TokenKey old.token))
          (oauth2TokenKey a2)
          (Val.vaccessToken ⟨a2, s2l "Bearer", tokenExpirationSecs, r2, old.scopes, old.userID, old.clientID⟩)
          tokenExpirationSecs t1)
        (oauth2RefreshKey r2)
        (Val.vaccessToken ⟨a2, s2l "Bearer", tokenExpirationSecs, r2, old.scopes, old.userID, old.clientID⟩)
        refreshTTLSecs t1) := by
    unfold oauth2RefreshAccessToken
    rw [hreg]
    dsimp only
    rw [if_neg hnsec, hget1]
    dsimp only
    rw [if_neg hncl]
    rfl
  refine ⟨_, hmain, ?_, ?_, ?_⟩
  · intro t'
    unfold validateAccessToken
    rw [Store.get_set_ne _ _ _ _ _ (oauth2TokenKey_ne_refreshKey a1 r2),
      Store.get_set_ne _ _ _ _ _ (fun he => ha (oauth2TokenKey_inj he).symm),
      htok, Store.get_delete_self]
  · rw [Store.find_set_ne _ _ _ _ (fun he => hr (oauth2RefreshKey_inj he).symm),
      Store.find_set_ne _ _ _ _ (Ne.symm (oauth2TokenKey_ne_refreshKey a2 r1)),
      Store.find_delete_ne _ (Ne.symm (oauth2TokenKey_ne_refreshKey old.token r1))]
    exact hfind
  · have hfind' : Store.find
        (Store.set (Store.set (Store.delete s (oauth2TokenKey old.token))
          (oauth2TokenKey a2)
          (Val.vaccessToken ⟨a2, s2l "Bearer", tokenExpirationSecs, r2, old.scopes, old.userID, old.clientID⟩)
          tokenExpirationSecs t1)
        (oauth2RefreshKey r2)
        (Val.vaccessToken ⟨a2, s2l "Bearer", tokenExpirationSecs, r2, old.scopes, old.userID, old.clientID⟩)
        refreshTTLSecs t1) (oauth2RefreshKey r1) = some it := by
      rw [Store.find_set_ne _ _ _ _ (fun he => hr (oauth2RefreshKey_inj he).symm),
        Store.find_set_ne _ _ _ _ (Ne.symm (oauth2TokenKey_ne_refreshKey a2 r1)),
        Store.find_delete_ne _ (Ne.symm (oauth2TokenKey_ne_refreshKey old.token r1))]
      exact hfind
    have hget2 : Store.get
        (Store.set (Store.set (Store.delete s (oauth2TokenKey old.token))
          (oauth2TokenKey a2)
          (Val.vaccessToken ⟨a2, s2l "Bearer", tokenExpirationSecs, r2, old.scopes, old.userID, old.clientID⟩)
          tokenExpirationSecs t1)
        (oauth2RefreshKey r2)
        (Val.vaccessToken ⟨a2, s2l "Bearer", tokenExpirationSecs, r2, old.scopes, old.userID, old.clientID⟩)
        refreshTTLSecs t1) (oauth2RefreshKey r1) t2 = some (Val.vaccessToken old) := by
      unfold Store.get
      rw [hfind']
      simp [hval, hexp2]
    unfold oauth2RefreshAccessToken
    rw [hreg]
    dsimp only
    rw [if_neg hnsec, hget2]
    dsimp only
    rw [if_neg hncl]
    rfl

/-- C2 amended witness: concrete refresh-rotation run. -/
theorem oauth2_refresh_rotation_amended_witness :
    ∃ s' : Store,
      oauth2RefreshAccessToken [(s2l "cid", ⟨s2l "cid", s2l "sec", [s2l "https://cb"], [], []⟩)]
        [(oauth2RefreshKey (s2l "r1"),
          ⟨Val.vaccessToken ⟨s2l "a1", s2l "Bearer", tokenExpirationSecs, s2l "r1", [], s2l "u1", s2l "cid"⟩, 0⟩)]
        (s2l "r1") (s2l "cid") (s2l "sec") (s2l "a2") (s2l "r2") 10
        = (.ok ⟨s2l "a2", s2l "Bearer", tokenExpirationSecs, s2l "r2", [], s2l "u1", s2l "cid"⟩, s')
      ∧ validateAccessToken s' (s2l "a1") 11 = .error .invalidAccessToken := by
  obtain ⟨s', h1, h2, _, _⟩ := oauth2_refresh_rotation_amended
    [(s2l "cid", ⟨s2l "cid", s2l "sec", [s2l "https://cb"], [], []⟩)]
    ⟨s2l "cid", s2l "sec", [s2l "https://cb"], [], []⟩
    [(oauth2RefreshKey (s2l "r1"),
      ⟨Val.vaccessToken ⟨s2l "a1", s2l "Bearer", tokenExpirationSecs, s2l "r1", [], s2l "u1", s2l "cid"⟩, 0⟩)]
    (s2l "cid") (s2l "sec") (s2l "a1") (s2l "r1") (s2l "a2") (s2l "r2")
    (s2l "a3") (s2l "r3")
    ⟨s2l "a1", s2l "Bearer", tokenExpirationSecs, s2l "r1", [], s2l "u1", s2l "cid"⟩
    ⟨Val.vaccessToken ⟨s2l "a1", s2l "Bearer", tokenExpirationSecs, s2l "r1", [], s2l "u1", s2l "cid"⟩, 0⟩
    10 20 (by decide) rfl (by decide) rfl rfl rfl rfl (by decide) (by decide) rfl
  exact ⟨s', h1, h2 11⟩

/-- C7 witness: concrete generate/verify/verify run. -/
theorem nonce_generate_verify_once_witness :
    (nonceVerify (nonceGenerate [] (s2l "n1") 0).2 (s2l "n1") 10).1 = true
    ∧ (nonceVerify (nonceVerify (nonceGenerate [] (s2l "n1") 0).2 (s2l "n1") 10).2
        (s2l "n1") 20).1 = false := by
  obtain ⟨h1, _, h3, _, _⟩ :=
    nonce_generate_verify_once [] (s2l "n1") 0 10 20 (by decide) (by decide)
  exact ⟨h1, h3⟩

end SaTokenGo
